import Mathlib

/-!
# Verification of the chat server (`src/main.py`)

Shallow embedding of the FastAPI chat server: the SQLite message table and
its helper operations, the per-room connection registry, and the WebSocket
endpoint's connect phase and receive loop.

Modelling conventions:
* The `messages` SQLite table is a `DB`: a list of rows plus the
  AUTOINCREMENT counter (`lastrowid` of the next insert).  Row order in the
  list is physical insertion order; `ORDER BY id ASC` is modelled by an
  explicit stable sort on `id`.
* A live WebSocket connection is an opaque `Handle` (a `Nat`).  The global
  `clients` dict with keys `"work"` and `"school"` is the `Clients`
  structure.
* JWT verification (`verify_token`) is an external effect: the connect phase
  takes the verifier as an abstract function `String → Option String`.
* `time.time()` is passed in as the `now` parameter.
* One iteration of the receive loop consumes an `Inbound` event:
  `disconnect` (receive raised `WebSocketDisconnect`), `badJson`
  (`receive_json` raised on a frame that is not valid JSON — caught only by
  the outer `except Exception` handler), `malformed` (the JSON object was
  received but `WSIncoming(**data)` raised a validation error), or a
  validated `frame`.
* `await c.send_json(...)` succeeding or raising for a given connection is
  modelled by the predicate `sendOk : Handle → Bool`.
-/

abbrev Handle := Nat

/-- A row of the `messages` table: `id, room, name, text, img, ts`. -/
structure Message where
  id : Nat
  room : String
  name : String
  text : Option String
  img : Option String
  ts : Nat
deriving DecidableEq, Repr

/-- The `messages` table plus SQLite's AUTOINCREMENT counter: `nextId` is the
`lastrowid` the next `INSERT` will produce; AUTOINCREMENT never reuses ids. -/
structure DB where
  messages : List Message
  nextId : Nat
deriving DecidableEq, Repr

/-- The empty database right after `init_db()`: no rows, first id is 1. -/
def DB.empty : DB := { messages := [], nextId := 1 }

/-- `insert_message(room, name, text, img)`: inserts a row with the next
AUTOINCREMENT id and timestamp `now`, returning `lastrowid`. -/
def insert_message (room name : String) (text img : Option String) (now : Nat)
    (db : DB) : DB × Nat :=
  ({ messages := db.messages ++ [⟨db.nextId, room, name, text, img, now⟩]
   , nextId := db.nextId + 1 }, db.nextId)

/-- Stable ascending sort on `id`, modelling SQL `ORDER BY id ASC`. -/
def sortById (l : List Message) : List Message :=
  l.insertionSort (fun a b => a.id ≤ b.id)

/-- `list_messages_for_room(room)`:
`SELECT id, room, name, text, img, ts FROM messages WHERE room = ? ORDER BY id ASC`. -/
def list_messages_for_room (room : String) (db : DB) : List Message :=
  sortById (db.messages.filter (fun m => m.room == room))

/-- `get_message_by_id(msg_id)`:
`SELECT ... FROM messages WHERE id = ?` then `fetchone()` — the first row
in physical order with that id, if any.  `incoming.id` is a Python `int`,
so the key is an `Int`. -/
def get_message_by_id (msgId : Int) (db : DB) : Option Message :=
  db.messages.find? (fun m => (m.id : Int) == msgId)

/-- `update_message(msg_id, text, img)`:
`UPDATE messages SET text = ?, img = ? WHERE id = ?` — every row whose id
matches gets both fields overwritten; all other columns and the row order
are untouched. -/
def update_message (msgId : Int) (text img : Option String) (db : DB) : DB :=
  { db with messages := db.messages.map (fun m =>
      if (m.id : Int) == msgId then { m with text := text, img := img } else m) }

/-- `delete_message(msg_id)`: `DELETE FROM messages WHERE id = ?`. -/
def delete_message (msgId : Int) (db : DB) : DB :=
  { db with messages := db.messages.filter (fun m => !((m.id : Int) == msgId)) }

/-- The module-level `clients` dict: `{"work": [], "school": []}`, one Python
list of live WebSockets per room. -/
structure Clients where
  work : List Handle
  school : List Handle
deriving DecidableEq, Repr

/-- `clients[room]` for the two keys present in the dict.  (The endpoint only
indexes the dict after validating `room in ("work", "school")`, so other keys
are never looked up; they are mapped to `[]` here.) -/
def Clients.get (cl : Clients) (room : String) : List Handle :=
  if room = "work" then cl.work
  else if room = "school" then cl.school
  else []

/-- `clients[room] = l` for the two keys present in the dict. -/
def Clients.set (cl : Clients) (room : String) (l : List Handle) : Clients :=
  if room = "work" then { cl with work := l }
  else if room = "school" then { cl with school := l }
  else cl

/-- `clients[room].append(websocket)` — Python `list.append`, which always
appends, including when the handle is already in the list. -/
def registerClient (room : String) (ws : Handle) (cl : Clients) : Clients :=
  cl.set room (cl.get room ++ [ws])

/-- `if websocket in clients[room]: clients[room].remove(websocket)` —
removes the first occurrence when present. -/
def removeClient (room : String) (ws : Handle) (cl : Clients) : Clients :=
  let l := cl.get room
  cl.set room (if l.contains ws then l.erase ws else l)

/-- Whole server state: the database plus the live-connection registry. -/
structure ServerState where
  db : DB
  clients : Clients
deriving DecidableEq, Repr

/-- The `message` field of an inbound frame (`MessageIn`): `name` required,
`text`/`img` optional. -/
structure MessageIn where
  name : String
  text : Option String
  img : Option String
deriving DecidableEq, Repr

/-- A validated inbound frame (`WSIncoming`): `action` required, the rest
optional. -/
structure WSIncoming where
  action : String
  room : Option String
  message : Option MessageIn
  id : Option Int
  index : Option Int
  name : Option String
deriving DecidableEq, Repr

/-- One event consumed by an iteration of the receive loop (see module
docstring). -/
inductive Inbound where
  | disconnect
  | badJson
  | malformed
  | frame (f : WSIncoming)
deriving DecidableEq, Repr

/-- What the broadcast loop did: the connections it attempted `send_json` to
(in iteration order), those whose send succeeded, and the `to_remove` list it
accumulated. -/
structure BroadcastTrace where
  attempted : List Handle
  delivered : List Handle
  toRemove : List Handle
deriving DecidableEq, Repr

/-- The `for c in clients[room]` loop: every registered connection is
attempted; a raising `send_json` appends the connection to `to_remove` and
the loop moves on. -/
def broadcastRun (sendOk : Handle → Bool) : List Handle → BroadcastTrace
  | [] => ⟨[], [], []⟩
  | c :: cs =>
    let t := broadcastRun sendOk cs
    if sendOk c then ⟨c :: t.attempted, c :: t.delivered, t.toRemove⟩
    else ⟨c :: t.attempted, t.delivered, c :: t.toRemove⟩

/-- The removal loop after the fan-out:
`for r in to_remove: if r in clients[room]: clients[room].remove(r)`. -/
def pruneClients (conns toRemove : List Handle) : List Handle :=
  toRemove.foldl (fun acc r => if acc.contains r then acc.erase r else acc) conns

/-- Whether the session survives the loop iteration. -/
inductive Status where
  | active
  | closed
deriving DecidableEq, Repr

/-- Result of one receive-loop iteration: the new server state, the broadcast
(payload and fan-out trace) if one happened, and whether the session is still
active. -/
structure StepResult where
  state : ServerState
  sent : Option (List Message × BroadcastTrace)
  status : Status
deriving DecidableEq, Repr

/-- Shared mutation tail: recompute the room's ordered view, fan it out to
`clients[room]`, prune the connections whose send failed. -/
def mutateAndBroadcast (room : String) (sendOk : Handle → Bool) (db1 : DB)
    (cl : Clients) : StepResult :=
  let updated := list_messages_for_room room db1
  let conns := cl.get room
  let tr := broadcastRun sendOk conns
  { state := { db := db1, clients := cl.set room (pruneClients conns tr.toRemove) }
  , sent := some (updated, tr)
  , status := .active }

/-- `incoming.message.text if incoming.message else None` (and likewise
`msg.text if msg else None` on the send path). -/
def payloadText (f : WSIncoming) : Option String :=
  match f.message with
  | some m => m.text
  | none => none

/-- `incoming.message.img if incoming.message else None` (and likewise
`msg.img if msg else None` on the send path). -/
def payloadImg (f : WSIncoming) : Option String :=
  match f.message with
  | some m => m.img
  | none => none

/-- One iteration of the receive loop of `websocket_endpoint` for a session
with verified identity `username` joined to `room` over connection `ws`. -/
def wsStep (username room : String) (ws : Handle) (sendOk : Handle → Bool)
    (now : Nat) (inb : Inbound) (st : ServerState) : StepResult :=
  match inb with
  | .disconnect =>
    -- `except WebSocketDisconnect`: deregister, session over.
    { state := { st with clients := removeClient room ws st.clients }
    , sent := none, status := .closed }
  | .badJson =>
    -- `receive_json` raised; only the outer `except Exception` catches it:
    -- deregister, close, session over.
    { state := { st with clients := removeClient room ws st.clients }
    , sent := none, status := .closed }
  | .malformed =>
    -- `WSIncoming(**data)` raised: `continue`.
    { state := st, sent := none, status := .active }
  | .frame f =>
    if f.action = "send" then
      let (db1, _) := insert_message room username (payloadText f) (payloadImg f) now st.db
      mutateAndBroadcast room sendOk db1 st.clients
    else if f.action = "edit" then
      match f.id with
      | none => { state := st, sent := none, status := .active }
      | some msgId =>
        match get_message_by_id msgId st.db with
        | some msgRecord =>
          if msgRecord.name = username then
            mutateAndBroadcast room sendOk
              (update_message msgId (payloadText f) (payloadImg f) st.db) st.clients
          else { state := st, sent := none, status := .active }
        | none => { state := st, sent := none, status := .active }
    else if f.action = "delete" then
      match f.id with
      | none => { state := st, sent := none, status := .active }
      | some msgId =>
        match get_message_by_id msgId st.db with
        | some existing =>
          if existing.name = username then
            mutateAndBroadcast room sendOk (delete_message msgId st.db) st.clients
          else { state := st, sent := none, status := .active }
        | none => { state := st, sent := none, status := .active }
    else
      -- unknown action: `continue`.
      { state := st, sent := none, status := .active }

/-- Outcome of the connect phase: rejected (closed with code 1008, nothing
else done) or joined with the initial snapshot that is sent to the caller. -/
inductive ConnectOutcome where
  | rejected
  | joined (username : String) (snapshot : List Message)
deriving DecidableEq, Repr

/-- `verify_token(token) if token else None`: the verified identity of the
connection, where `verify` abstracts the JWT decode. -/
def tokenUsername (verify : String → Option String) (token : Option String) :
    Option String :=
  match token with
  | some t => verify t
  | none => none

/-- Python truthiness of the `username` value in
`if not username or ...`: `None` and the empty string are falsy. -/
def truthyUsername : Option String → Bool
  | some u => u ≠ ""
  | none => false

/-- The connect phase of `websocket_endpoint`: read `token` and `room` query
params, verify the token, require a truthy username and a known room, then
register the connection and compute the initial room snapshot. -/
def wsConnect (verify : String → Option String) (token room : Option String)
    (ws : Handle) (st : ServerState) : ConnectOutcome × ServerState :=
  let username : Option String := tokenUsername verify token
  -- `if not username or room not in ("work", "school")`
  if truthyUsername username ∧ (room = some "work" ∨ room = some "school") then
    let rname := room.getD ""
    let cl := registerClient rname ws st.clients
    let st' : ServerState := { st with clients := cl }
    (ConnectOutcome.joined (username.getD "") (list_messages_for_room rname st'.db), st')
  else
    (ConnectOutcome.rejected, st)

/-! ## Helper lemmas -/

instance : IsTrans Message (fun a b => a.id ≤ b.id) :=
  ⟨fun _ _ _ => Nat.le_trans⟩

instance : IsTotal Message (fun a b => a.id ≤ b.id) :=
  ⟨fun a b => Nat.le_total a.id b.id⟩

theorem sortById_sorted (l : List Message) :
    (sortById l).Sorted (fun a b => a.id ≤ b.id) :=
  List.sorted_insertionSort _ l

theorem sortById_perm (l : List Message) : (sortById l).Perm l :=
  List.perm_insertionSort _ l

theorem mem_sortById {m : Message} {l : List Message} :
    m ∈ sortById l ↔ m ∈ l :=
  (sortById_perm l).mem_iff

theorem mem_list_messages_for_room {m : Message} {room : String} {db : DB} :
    m ∈ list_messages_for_room room db ↔ m ∈ db.messages ∧ m.room = room := by
  simp [list_messages_for_room, mem_sortById, List.mem_filter]

theorem broadcastRun_attempted (sendOk : Handle → Bool) (conns : List Handle) :
    (broadcastRun sendOk conns).attempted = conns := by
  induction conns with
  | nil => rfl
  | cons c cs ih =>
    simp only [broadcastRun]
    by_cases h : sendOk c <;> simp [h, ih]

theorem broadcastRun_delivered (sendOk : Handle → Bool) (conns : List Handle) :
    (broadcastRun sendOk conns).delivered = conns.filter sendOk := by
  induction conns with
  | nil => rfl
  | cons c cs ih =>
    simp only [broadcastRun]
    by_cases h : sendOk c <;> simp [h, ih, List.filter_cons]

theorem broadcastRun_toRemove (sendOk : Handle → Bool) (conns : List Handle) :
    (broadcastRun sendOk conns).toRemove = conns.filter (fun c => !sendOk c) := by
  induction conns with
  | nil => rfl
  | cons c cs ih =>
    simp only [broadcastRun]
    by_cases h : sendOk c <;> simp [h, ih, List.filter_cons]

theorem pruneClients_eq_diff (toRemove conns : List Handle) :
    pruneClients conns toRemove = conns.diff toRemove := by
  induction toRemove generalizing conns with
  | nil => rfl
  | cons r rs ih =>
    have hstep : (if conns.contains r then conns.erase r else conns) = conns.erase r := by
      by_cases h : conns.contains r
      · rw [if_pos h]
      · have hnot : r ∉ conns := by simpa using h
        rw [if_neg h, List.erase_of_not_mem hnot]
    simp only [pruneClients, List.foldl_cons, hstep]
    rw [List.diff_cons]
    exact ih (conns.erase r)

theorem diff_self_filter (p : Handle → Bool) (l : List Handle) :
    l.diff (l.filter p) = l.filter (fun a => !p a) := by
  induction l with
  | nil => rfl
  | cons x xs ih =>
    by_cases hx : p x
    · simp only [List.filter_cons, hx, if_pos]
      rw [List.diff_cons, List.erase_cons_head]
      simpa [List.filter_cons, hx] using ih
    · have hxnot : x ∉ xs.filter p := by
        intro hmem
        exact hx (List.of_mem_filter hmem)
      simp only [List.filter_cons, hx, if_neg, Bool.not_eq_true]
      rw [List.cons_diff_of_not_mem hxnot]
      simp [ih, hx]

theorem pruneClients_broadcast (sendOk : Handle → Bool) (conns : List Handle) :
    pruneClients conns (broadcastRun sendOk conns).toRemove = conns.filter sendOk := by
  rw [broadcastRun_toRemove, pruneClients_eq_diff, diff_self_filter]
  simp

theorem Clients.get_set_self (cl : Clients) (room : String) (l : List Handle)
    (h : room = "work" ∨ room = "school") : (cl.set room l).get room = l := by
  rcases h with h | h <;> subst h <;> simp [Clients.get, Clients.set]

theorem Clients.get_set_ne (cl : Clients) (room r' : String) (l : List Handle)
    (h : r' ≠ room) : (cl.set room l).get r' = cl.get r' := by
  by_cases hw : room = "work"
  · subst hw
    by_cases hw' : r' = "work"
    · exact absurd hw' h
    · by_cases hs' : r' = "school" <;> simp [Clients.get, Clients.set, hw', hs']
  · by_cases hs : room = "school"
    · subst hs
      by_cases hw' : r' = "work"
      · subst hw'; simp [Clients.get, Clients.set]
      · by_cases hs' : r' = "school"
        · exact absurd hs' h
        · simp [Clients.get, Clients.set, hw', hs']
    · simp [Clients.set, hw, hs]

theorem registerClient_get (cl : Clients) (room : String) (ws : Handle)
    (h : room = "work" ∨ room = "school") :
    (registerClient room ws cl).get room = cl.get room ++ [ws] := by
  unfold registerClient
  exact Clients.get_set_self cl room _ h

theorem get_message_by_id_update (msgId : Int) (t i : Option String) (db : DB) :
    get_message_by_id msgId (update_message msgId t i db)
      = (get_message_by_id msgId db).map (fun m => { m with text := t, img := i }) := by
  simp only [get_message_by_id, update_message]
  induction db.messages with
  | nil => rfl
  | cons hd tl ih =>
    simp only [List.map_cons]
    by_cases hbeq : ((hd.id : Int) == msgId) = true
    · rw [if_pos hbeq, List.find?_cons, List.find?_cons]
      simp [hbeq]
    · have hfalse : ((hd.id : Int) == msgId) = false := by
        simpa using hbeq
      rw [if_neg hbeq, List.find?_cons, List.find?_cons]
      simpa [hfalse] using ih

theorem get_message_by_id_delete (msgId : Int) (db : DB) :
    get_message_by_id msgId (delete_message msgId db) = none := by
  simp only [get_message_by_id, delete_message]
  rw [List.find?_eq_none]
  intro x hx
  have h1 := List.of_mem_filter hx
  simpa using h1

/-! ## Claim theorems -/

/-- C2: for every send request, whatever name the client supplies in the
frame's message payload, the stored row's `name` (author) is the session's
verified identity `username`, never the client-supplied value: the new log is
the old one with exactly one row appended, authored by `username`. -/
theorem send_identity_integrity (username room : String) (ws : Handle)
    (sendOk : Handle → Bool) (now : Nat) (f : WSIncoming) (st : ServerState)
    (p : MessageIn) (hact : f.action = "send") (hmsg : f.message = some p) :
    (wsStep username room ws sendOk now (.frame f) st).state.db.messages
      = st.db.messages ++
        [{ id := st.db.nextId, room := room, name := username
         , text := p.text, img := p.img, ts := now }] := by
  simp [wsStep, hact, hmsg, mutateAndBroadcast, insert_message, payloadText, payloadImg]

/-- Witness for C2: a send from `alice`'s session carrying the client-supplied
name `mallory` stores a message authored by `alice`. -/
theorem send_identity_integrity_witness :
    (wsStep "alice" "work" 7 (fun _ => true) 100
        (.frame { action := "send", room := none
                , message := some { name := "mallory", text := some "hi", img := none }
                , id := none, index := none, name := none })
        { db := DB.empty, clients := { work := [7], school := [] } }).state.db.messages
      = [{ id := 1, room := "work", name := "alice"
         , text := some "hi", img := none, ts := 100 }] := by
  have h := send_identity_integrity "alice" "work" 7 (fun _ => true) 100
      { action := "send", room := none
      , message := some { name := "mallory", text := some "hi", img := none }
      , id := none, index := none, name := none }
      { db := DB.empty, clients := { work := [7], school := [] } }
      { name := "mallory", text := some "hi", img := none } rfl rfl
  simpa [DB.empty] using h

/-- C4: during a broadcast, every registered connection is attempted
regardless of other connections' failures, every connection whose send
succeeds is delivered to, and every registered connection whose send fails is
absent from the room's registry after the pruning pass of the same
broadcast. -/
theorem fanout_isolation (room : String) (sendOk : Handle → Bool)
    (db1 : DB) (cl : Clients) (c : Handle)
    (hroom : room = "work" ∨ room = "school")
    (hc : c ∈ cl.get room) (hfail : sendOk c = false) :
    (broadcastRun sendOk (cl.get room)).attempted = cl.get room
    ∧ (∀ d, d ∈ cl.get room → sendOk d = true →
        d ∈ (broadcastRun sendOk (cl.get room)).delivered)
    ∧ c ∉ (mutateAndBroadcast room sendOk db1 cl).state.clients.get room := by
  refine ⟨broadcastRun_attempted _ _, ?_, ?_⟩
  · intro d hd hok
    rw [broadcastRun_delivered]
    exact List.mem_filter.mpr ⟨hd, hok⟩
  · have hcl : (mutateAndBroadcast room sendOk db1 cl).state.clients
        = cl.set room (pruneClients (cl.get room)
            (broadcastRun sendOk (cl.get room)).toRemove) := rfl
    rw [hcl, Clients.get_set_self _ _ _ hroom, pruneClients_broadcast]
    intro hmem
    have hok := List.of_mem_filter hmem
    rw [hfail] at hok
    cases hok

/-- Witness for C4: with connections 1 and 2 registered in `work` and
connection 1's channel broken, both are attempted, 2 is delivered to, and 1
is absent from `work`'s registry after the broadcast. -/
theorem fanout_isolation_witness :
    (broadcastRun (fun h => h != 1)
        (({ work := [1, 2], school := [] } : Clients).get "work")).attempted
      = ({ work := [1, 2], school := [] } : Clients).get "work"
    ∧ (∀ d, d ∈ ({ work := [1, 2], school := [] } : Clients).get "work" →
        (fun h => h != 1) d = true →
        d ∈ (broadcastRun (fun h => h != 1)
              (({ work := [1, 2], school := [] } : Clients).get "work")).delivered)
    ∧ 1 ∉ (mutateAndBroadcast "work" (fun h => h != 1) DB.empty
            { work := [1, 2], school := [] }).state.clients.get "work" :=
  fanout_isolation "work" (fun h => h != 1) DB.empty
    { work := [1, 2], school := [] } 1 (Or.inl rfl) (by decide) (by decide)

/-- C6: `update_message` preserves the number of rows and, at every position,
the row's `id`, `room`, `name` (author) and `ts` (createdAt); an edit can
change only `text` and `img`. -/
theorem edit_frame_effect (msgId : Int) (text img : Option String) (db : DB)
    (k : Nat) :
    (update_message msgId text img db).messages.length = db.messages.length
    ∧ (update_message msgId text img db).messages[k]?.map Message.id
        = db.messages[k]?.map Message.id
    ∧ (update_message msgId text img db).messages[k]?.map Message.room
        = db.messages[k]?.map Message.room
    ∧ (update_message msgId text img db).messages[k]?.map Message.name
        = db.messages[k]?.map Message.name
    ∧ (update_message msgId text img db).messages[k]?.map Message.ts
        = db.messages[k]?.map Message.ts := by
  refine ⟨by simp [update_message], ?_⟩
  simp only [update_message, List.getElem?_map]
  cases db.messages[k]? with
  | none => simp
  | some m =>
    by_cases h : (m.id : Int) = msgId <;> simp [h]

/-- Counterexample for C7: starting from an empty registry, registering
handle 7 in room `work` twice leaves it present twice, not once — `append`
does not deduplicate. -/
theorem register_duplicate_cx :
    ¬ ((((registerClient "work" 7
          (registerClient "work" 7 { work := [], school := [] })).get
            "work").count 7) = 1) := by
  decide

/-- C7 amended: `register` is a plain Python `list.append`: registering a
handle — already registered or not — appends one more occurrence, so after a
second register of the same handle the handle appears twice, not once. -/
theorem register_appends (cl : Clients) (room : String) (ws : Handle)
    (h : room = "work" ∨ room = "school") :
    ((registerClient room ws cl).get room).count ws = (cl.get room).count ws + 1
    ∧ (registerClient room ws cl).get room = cl.get room ++ [ws] := by
  have hg := registerClient_get cl room ws h
  refine ⟨?_, hg⟩
  rw [hg]
  simp

/-- Witness for C7's amended claim: re-registering handle 7 when it is
already registered once makes its count 2. -/
theorem register_appends_witness :
    ((registerClient "work" 7 { work := [7], school := [] }).get "work").count 7
      = (({ work := [7], school := [] } : Clients).get "work").count 7 + 1 :=
  (register_appends { work := [7], school := [] } "work" 7 (Or.inl rfl)).1

/-- C9: if the connection's token does not verify to a non-empty identity
(missing token, failed verification, or an empty username), or the room
selector is outside the closed set `{work, school}`, the connect phase
rejects (closes with 1008) and leaves the server state exactly as it was: no
registry entry is created and no snapshot is produced. -/
theorem bootstrap_rejection (verify : String → Option String)
    (token room : Option String) (ws : Handle) (st : ServerState)
    (h : truthyUsername (tokenUsername verify token) = false
         ∨ (room ≠ some "work" ∧ room ≠ some "school")) :
    wsConnect verify token room ws st = (ConnectOutcome.rejected, st) := by
  simp only [wsConnect]
  rw [if_neg]
  rintro ⟨ht, hr⟩
  rcases h with hu | ⟨h1, h2⟩
  · rw [hu] at ht
    cases ht
  · rcases hr with hr | hr
    · exact h1 hr
    · exact h2 hr

/-- Witness for C9: a token verifying to no identity is rejected with the
state untouched. -/
theorem bootstrap_rejection_witness :
    wsConnect (fun _ => none) (some "sometoken") (some "work") 3
        { db := DB.empty, clients := { work := [], school := [] } }
      = (ConnectOutcome.rejected,
         { db := DB.empty, clients := { work := [], school := [] } }) :=
  bootstrap_rejection (fun _ => none) (some "sometoken") (some "work") 3
    { db := DB.empty, clients := { work := [], school := [] } } (Or.inl rfl)

/-- C1: ownership invariant — an edit or delete frame mutates the database
only when the target id is present, the target message exists, and its
recorded author equals the session's verified identity; whenever every
matching record has a different author (or no record exists), the whole
message log is left unchanged. -/
theorem ownership_invariant (username room : String) (ws : Handle)
    (sendOk : Handle → Bool) (now : Nat) (f : WSIncoming) (st : ServerState)
    (hact : f.action = "edit" ∨ f.action = "delete") :
    ((∀ msgId m, f.id = some msgId → get_message_by_id msgId st.db = some m →
        m.name ≠ username) →
      (wsStep username room ws sendOk now (.frame f) st).state.db = st.db)
    ∧ ((wsStep username room ws sendOk now (.frame f) st).state.db ≠ st.db →
      ∃ msgId m, f.id = some msgId ∧ get_message_by_id msgId st.db = some m ∧
        m.name = username) := by
  rcases hact with hact | hact
  · cases hid : f.id with
    | none =>
      have hdb : (wsStep username room ws sendOk now (.frame f) st).state.db = st.db := by
        simp [wsStep, hact, hid]
      exact ⟨fun _ => hdb, fun hne => absurd hdb hne⟩
    | some msgId =>
      cases hget : get_message_by_id msgId st.db with
      | none =>
        have hdb : (wsStep username room ws sendOk now (.frame f) st).state.db = st.db := by
          simp [wsStep, hact, hid, hget]
        exact ⟨fun _ => hdb, fun hne => absurd hdb hne⟩
      | some m =>
        by_cases hname : m.name = username
        · refine ⟨fun hall => absurd hname (hall msgId m rfl hget), ?_⟩
          exact fun _ => ⟨msgId, m, rfl, hget, hname⟩
        · have hdb : (wsStep username room ws sendOk now (.frame f) st).state.db = st.db := by
            simp [wsStep, hact, hid, hget, hname]
          exact ⟨fun _ => hdb, fun hne => absurd hdb hne⟩
  · cases hid : f.id with
    | none =>
      have hdb : (wsStep username room ws sendOk now (.frame f) st).state.db = st.db := by
        simp [wsStep, hact, hid]
      exact ⟨fun _ => hdb, fun hne => absurd hdb hne⟩
    | some msgId =>
      cases hget : get_message_by_id msgId st.db with
      | none =>
        have hdb : (wsStep username room ws sendOk now (.frame f) st).state.db = st.db := by
          simp [wsStep, hact, hid, hget]
        exact ⟨fun _ => hdb, fun hne => absurd hdb hne⟩
      | some m =>
        by_cases hname : m.name = username
        · refine ⟨fun hall => absurd hname (hall msgId m rfl hget), ?_⟩
          exact fun _ => ⟨msgId, m, rfl, hget, hname⟩
        · have hdb : (wsStep username room ws sendOk now (.frame f) st).state.db = st.db := by
            simp [wsStep, hact, hid, hget, hname]
          exact ⟨fun _ => hdb, fun hne => absurd hdb hne⟩

/-- Witness for C1: `alice`'s session tries to edit a message authored by
`bob`; the log is unchanged. -/
theorem ownership_invariant_witness :
    (wsStep "alice" "work" 7 (fun _ => true) 100
        (.frame { action := "edit", room := none
                , message := some { name := "alice", text := some "hack", img := none }
                , id := some 1, index := none, name := none })
        { db := { messages := [{ id := 1, room := "work", name := "bob"
                               , text := some "hi", img := none, ts := 10 }]
                , nextId := 2 }
        , clients := { work := [7], school := [] } }).state.db
      = { messages := [{ id := 1, room := "work", name := "bob"
                       , text := some "hi", img := none, ts := 10 }]
        , nextId := 2 } :=
  (ownership_invariant "alice" "work" 7 (fun _ => true) 100
      { action := "edit", room := none
      , message := some { name := "alice", text := some "hack", img := none }
      , id := some 1, index := none, name := none }
      { db := { messages := [{ id := 1, room := "work", name := "bob"
                             , text := some "hi", img := none, ts := 10 }]
              , nextId := 2 }
      , clients := { work := [7], school := [] } }
      (Or.inl rfl)).1
    (by
      intro msgId m hid hget
      have hid' : some (1 : Int) = some msgId := hid
      injection hid' with h1
      subst h1
      have hm' : some ({ id := 1, room := "work", name := "bob"
                       , text := some "hi", img := none, ts := 10 } : Message)
          = some m := hget
      injection hm' with h2
      subst h2
      decide)

/-- Any broadcast emitted by a loop iteration carries exactly the freshly
recomputed ordered view of the session's room on the post-mutation database,
and its fan-out list is the room's registered connections at mutation time. -/
theorem wsStep_sent_characterization (username room : String) (ws : Handle)
    (sendOk : Handle → Bool) (now : Nat) (inb : Inbound) (st : ServerState)
    (payload : List Message) (tr : BroadcastTrace)
    (hsent : (wsStep username room ws sendOk now inb st).sent = some (payload, tr)) :
    payload = list_messages_for_room room
        (wsStep username room ws sendOk now inb st).state.db
    ∧ tr.attempted = st.clients.get room := by
  cases inb with
  | disconnect => simp [wsStep] at hsent
  | badJson => simp [wsStep] at hsent
  | malformed => simp [wsStep] at hsent
  | frame f =>
    by_cases hs : f.action = "send"
    · simp only [wsStep, hs, if_pos, mutateAndBroadcast, Option.some.injEq,
        Prod.mk.injEq, reduceIte] at hsent ⊢
      obtain ⟨hp, htr⟩ := hsent
      subst hp
      subst htr
      exact ⟨rfl, broadcastRun_attempted _ _⟩
    · by_cases he : f.action = "edit"
      · cases hid : f.id with
        | none => simp [wsStep, hs, he, hid] at hsent
        | some msgId =>
          cases hget : get_message_by_id msgId st.db with
          | none => simp [wsStep, hs, he, hid, hget] at hsent
          | some m =>
            by_cases hname : m.name = username
            · simp only [wsStep, hs, he, hid, hget, hname, mutateAndBroadcast,
                Option.some.injEq, Prod.mk.injEq, String.reduceEq, reduceIte,
                if_true] at hsent ⊢
              obtain ⟨hp, htr⟩ := hsent
              subst hp
              subst htr
              exact ⟨rfl, broadcastRun_attempted _ _⟩
            · simp [wsStep, hs, he, hid, hget, hname] at hsent
      · by_cases hd : f.action = "delete"
        · cases hid : f.id with
          | none => simp [wsStep, hs, he, hd, hid] at hsent
          | some msgId =>
            cases hget : get_message_by_id msgId st.db with
            | none => simp [wsStep, hs, he, hd, hid, hget] at hsent
            | some m =>
              by_cases hname : m.name = username
              · simp only [wsStep, hs, he, hd, hid, hget, hname, mutateAndBroadcast,
                  Option.some.injEq, Prod.mk.injEq, String.reduceEq, reduceIte,
                  if_true] at hsent ⊢
                obtain ⟨hp, htr⟩ := hsent
                subst hp
                subst htr
                exact ⟨rfl, broadcastRun_attempted _ _⟩
              · simp [wsStep, hs, he, hd, hid, hget, hname] at hsent
        · simp [wsStep, hs, he, hd] at hsent

/-- C3: whenever a loop iteration performs a successful mutation (send, edit
or delete) and hence broadcasts, the pushed payload is the full list of the
room's messages on the post-mutation database, sorted ascending by id, and
delivery is attempted to exactly the connections registered in the room at
that moment — including the mutating connection itself. -/
theorem broadcast_full_ordered_view (username room : String) (ws : Handle)
    (sendOk : Handle → Bool) (now : Nat) (inb : Inbound) (st : ServerState)
    (payload : List Message) (tr : BroadcastTrace)
    (hws : ws ∈ st.clients.get room)
    (hsent : (wsStep username room ws sendOk now inb st).sent = some (payload, tr)) :
    payload = list_messages_for_room room
        (wsStep username room ws sendOk now inb st).state.db
    ∧ payload.Sorted (fun a b => a.id ≤ b.id)
    ∧ (∀ m, m ∈ payload ↔
        m ∈ (wsStep username room ws sendOk now inb st).state.db.messages
          ∧ m.room = room)
    ∧ tr.attempted = st.clients.get room
    ∧ ws ∈ tr.attempted := by
  obtain ⟨hp, ha⟩ := wsStep_sent_characterization username room ws sendOk now
    inb st payload tr hsent
  refine ⟨hp, ?_, ?_, ha, ?_⟩
  · rw [hp]
    exact sortById_sorted _
  · intro m
    rw [hp]
    exact mem_list_messages_for_room
  · rw [ha]
    exact hws

/-- Witness for C3: `alice` (connection 7, the only member of `work`) sends a
message; the broadcast payload is the room's one-message ordered view and the
fan-out list is `[7]`, which contains the mutating connection. -/
theorem broadcast_full_ordered_view_witness :
    ([{ id := 1, room := "work", name := "alice", text := some "hi"
      , img := none, ts := 100 }]
      = list_messages_for_room "work"
          (wsStep "alice" "work" 7 (fun _ => true) 100
            (.frame { action := "send", room := none
                    , message := some { name := "alice", text := some "hi", img := none }
                    , id := none, index := none, name := none })
            { db := DB.empty
            , clients := { work := [7], school := [] } }).state.db)
    ∧ List.Sorted (fun (a b : Message) => a.id ≤ b.id)
        [{ id := 1, room := "work", name := "alice", text := some "hi"
         , img := none, ts := 100 }]
    ∧ (⟨[7], [7], []⟩ : BroadcastTrace).attempted
        = ({ work := [7], school := [] } : Clients).get "work"
    ∧ 7 ∈ (⟨[7], [7], []⟩ : BroadcastTrace).attempted := by
  have h := broadcast_full_ordered_view "alice" "work" 7 (fun _ => true) 100
      (.frame { action := "send", room := none
              , message := some { name := "alice", text := some "hi", img := none }
              , id := none, index := none, name := none })
      { db := DB.empty, clients := { work := [7], school := [] } }
      [{ id := 1, room := "work", name := "alice", text := some "hi"
       , img := none, ts := 100 }]
      ⟨[7], [7], []⟩ (by decide) (by decide)
  exact ⟨h.1, h.2.1, h.2.2.2.1, h.2.2.2.2⟩

/-- Counterexample for C5: a valid send frame whose optional `message` field
is absent is accepted, and the stored row has `text = NULL` and
`img = NULL` — both absent, contradicting the claimed invariant. -/
theorem text_img_both_absent_cx :
    ¬ (∀ m ∈ (wsStep "alice" "work" 7 (fun _ => true) 100
        (.frame { action := "send", room := none, message := none
                , id := none, index := none, name := none })
        { db := DB.empty, clients := { work := [7], school := [] } }).state.db.messages,
        m.text ≠ none ∨ m.img ≠ none) := by
  decide

/-- C5 amended: the server never enforces presence of `text` or `img`: a send
stores exactly the client-supplied optional fields, both absent when the
frame's message payload is omitted (or carries neither), so the log may
contain messages with `text` and `img` both absent. -/
theorem send_stores_supplied_fields (username room : String) (ws : Handle)
    (sendOk : Handle → Bool) (now : Nat) (f : WSIncoming) (st : ServerState)
    (hact : f.action = "send") :
    (wsStep username room ws sendOk now (.frame f) st).state.db.messages
      = st.db.messages ++
        [{ id := st.db.nextId, room := room, name := username
         , text := payloadText f, img := payloadImg f, ts := now }] := by
  simp [wsStep, hact, mutateAndBroadcast, insert_message]

/-- Witness for C5's amended claim: a send with no message payload stores a
row whose `text` and `img` are both absent. -/
theorem send_stores_supplied_fields_witness :
    (wsStep "alice" "work" 7 (fun _ => true) 100
        (.frame { action := "send", room := none, message := none
                , id := none, index := none, name := none })
        { db := DB.empty, clients := { work := [7], school := [] } }).state.db.messages
      = [{ id := 1, room := "work", name := "alice", text := none
         , img := none, ts := 100 }] := by
  have h := send_stores_supplied_fields "alice" "work" 7 (fun _ => true) 100
      { action := "send", room := none, message := none
      , id := none, index := none, name := none }
      { db := DB.empty, clients := { work := [7], school := [] } } rfl
  simpa [DB.empty, payloadText, payloadImg] using h

/-- Counterexample for C8: a frame that is not valid JSON raises inside
`receive_json`; only the outer `except Exception` handler catches it, which
deregisters the connection and closes the session — so a single unparseable
frame does terminate the session and does change the registry. -/
theorem bad_frame_terminates_cx :
    (wsStep "alice" "work" 5 (fun _ => true) 0 .badJson
        { db := DB.empty, clients := { work := [5], school := [] } }).status
      ≠ Status.active
    ∧ (wsStep "alice" "work" 5 (fun _ => true) 0 .badJson
        { db := DB.empty, clients := { work := [5], school := [] } }).state.clients.work
      = [] := by
  decide

/-- C8 amended: a frame that is valid JSON but fails `WSIncoming` validation,
or that carries an unknown `action`, is discarded with no change to log or
registry and the session stays active; but a frame that is not valid JSON
raises out of `receive_json`, is caught only by the outer exception handler,
deregisters the connection and terminates the session. -/
theorem malformed_frame_handling (username room : String) (ws : Handle)
    (sendOk : Handle → Bool) (now : Nat) (st : ServerState) :
    (wsStep username room ws sendOk now .malformed st
        = { state := st, sent := none, status := .active })
    ∧ (∀ f : WSIncoming, f.action ≠ "send" → f.action ≠ "edit" →
        f.action ≠ "delete" →
        wsStep username room ws sendOk now (.frame f) st
          = { state := st, sent := none, status := .active })
    ∧ (wsStep username room ws sendOk now .badJson st).status = .closed
    ∧ (wsStep username room ws sendOk now .badJson st).state.db = st.db
    ∧ (wsStep username room ws sendOk now .badJson st).state.clients
        = removeClient room ws st.clients := by
  refine ⟨rfl, ?_, rfl, rfl, rfl⟩
  intro f h1 h2 h3
  simp [wsStep, h1, h2, h3]

/-- Witness for C8's amended claim: an unknown action `noop` is discarded and
the session stays active with the state untouched. -/
theorem malformed_frame_handling_witness :
    wsStep "alice" "work" 5 (fun _ => true) 0
        (.frame { action := "noop", room := none, message := none
                , id := none, index := none, name := none })
        { db := DB.empty, clients := { work := [5], school := [] } }
      = { state := { db := DB.empty, clients := { work := [5], school := [] } }
        , sent := none, status := .active } :=
  (malformed_frame_handling "alice" "work" 5 (fun _ => true) 0
      { db := DB.empty, clients := { work := [5], school := [] } }).2.1
    { action := "noop", room := none, message := none
    , id := none, index := none, name := none }
    (by decide) (by decide) (by decide)

/-- C10: edit and delete address the target by global id with no room
check: a session joined to `room` editing or deleting its own message stored
in a different room succeeds in mutating it (the edit rewrites the row in its
own room, the delete removes it), and the resulting broadcast carries the
session's room's message list and goes to the session's room's registered
connections, leaving the target's room's registry untouched. -/
theorem cross_room_mutation (username room : String) (ws : Handle)
    (sendOk : Handle → Bool) (now : Nat) (f : WSIncoming) (st : ServerState)
    (msgId : Int) (m : Message)
    (hact : f.action = "edit" ∨ f.action = "delete") (hid : f.id = some msgId)
    (hm : get_message_by_id msgId st.db = some m)
    (hname : m.name = username) (hroom : m.room ≠ room) :
    (f.action = "edit" →
      (wsStep username room ws sendOk now (.frame f) st).state.db
        = update_message msgId (payloadText f) (payloadImg f) st.db
      ∧ get_message_by_id msgId
          (wsStep username room ws sendOk now (.frame f) st).state.db
        = some { m with text := payloadText f, img := payloadImg f })
    ∧ (f.action = "delete" →
      (wsStep username room ws sendOk now (.frame f) st).state.db
        = delete_message msgId st.db
      ∧ get_message_by_id msgId
          (wsStep username room ws sendOk now (.frame f) st).state.db
        = none)
    ∧ (wsStep username room ws sendOk now (.frame f) st).sent
      = some (list_messages_for_room room
                (wsStep username room ws sendOk now (.frame f) st).state.db,
              broadcastRun sendOk (st.clients.get room))
    ∧ (broadcastRun sendOk (st.clients.get room)).attempted = st.clients.get room
    ∧ (wsStep username room ws sendOk now (.frame f) st).state.clients.get m.room
      = st.clients.get m.room := by
  rcases hact with hact | hact
  · have hstep : wsStep username room ws sendOk now (.frame f) st
        = mutateAndBroadcast room sendOk
            (update_message msgId (payloadText f) (payloadImg f) st.db) st.clients := by
      simp [wsStep, hact, hid, hm, hname]
    rw [hstep]
    refine ⟨fun _ => ⟨rfl, ?_⟩, fun hdel => ?_, rfl, broadcastRun_attempted _ _, ?_⟩
    · have hmb : (mutateAndBroadcast room sendOk
          (update_message msgId (payloadText f) (payloadImg f) st.db) st.clients).state.db
          = update_message msgId (payloadText f) (payloadImg f) st.db := rfl
      rw [hmb, get_message_by_id_update, hm]
      rfl
    · rw [hact] at hdel
      exact absurd hdel (by decide)
    · have hmb : (mutateAndBroadcast room sendOk
          (update_message msgId (payloadText f) (payloadImg f) st.db) st.clients).state.clients
          = st.clients.set room
              (pruneClients (st.clients.get room)
                (broadcastRun sendOk (st.clients.get room)).toRemove) := rfl
      rw [hmb]
      exact Clients.get_set_ne st.clients room m.room _ hroom
  · have hstep : wsStep username room ws sendOk now (.frame f) st
        = mutateAndBroadcast room sendOk (delete_message msgId st.db) st.clients := by
      simp [wsStep, hact, hid, hm, hname]
    rw [hstep]
    refine ⟨fun hedit => ?_, fun _ => ⟨rfl, ?_⟩, rfl, broadcastRun_attempted _ _, ?_⟩
    · rw [hact] at hedit
      exact absurd hedit (by decide)
    · have hmb : (mutateAndBroadcast room sendOk
          (delete_message msgId st.db) st.clients).state.db
          = delete_message msgId st.db := rfl
      rw [hmb]
      exact get_message_by_id_delete msgId st.db
    · have hmb : (mutateAndBroadcast room sendOk
          (delete_message msgId st.db) st.clients).state.clients
          = st.clients.set room
              (pruneClients (st.clients.get room)
                (broadcastRun sendOk (st.clients.get room)).toRemove) := rfl
      rw [hmb]
      exact Clients.get_set_ne st.clients room m.room _ hroom

/-- Witness for C10: `alice`, joined to `work` over connection 7, edits her
message with id 1 that lives in `school` — the edit is applied to the
`school`-stored row; she then deletes it cross-room too — the row is removed
from the log while `school`'s registry stays untouched. -/
theorem cross_room_mutation_witness :
    ((wsStep "alice" "work" 7 (fun _ => true) 100
        (.frame { action := "edit", room := none
                , message := some { name := "alice", text := some "bye", img := none }
                , id := some 1, index := none, name := none })
        { db := { messages := [{ id := 1, room := "school", name := "alice"
                               , text := some "hi", img := none, ts := 50 }]
                , nextId := 2 }
        , clients := { work := [7], school := [9] } }).state.db
      = update_message 1 (some "bye") none
          { messages := [{ id := 1, room := "school", name := "alice"
                         , text := some "hi", img := none, ts := 50 }]
          , nextId := 2 })
    ∧ get_message_by_id 1
        (wsStep "alice" "work" 7 (fun _ => true) 100
          (.frame { action := "edit", room := none
                  , message := some { name := "alice", text := some "bye", img := none }
                  , id := some 1, index := none, name := none })
          { db := { messages := [{ id := 1, room := "school", name := "alice"
                                 , text := some "hi", img := none, ts := 50 }]
                  , nextId := 2 }
          , clients := { work := [7], school := [9] } }).state.db
      = some { id := 1, room := "school", name := "alice"
             , text := some "bye", img := none, ts := 50 }
    ∧ (wsStep "alice" "work" 7 (fun _ => true) 100
        (.frame { action := "delete", room := none, message := none
                , id := some 1, index := none, name := none })
        { db := { messages := [{ id := 1, room := "school", name := "alice"
                               , text := some "hi", img := none, ts := 50 }]
                , nextId := 2 }
        , clients := { work := [7], school := [9] } }).state.db
      = delete_message 1
          { messages := [{ id := 1, room := "school", name := "alice"
                         , text := some "hi", img := none, ts := 50 }]
          , nextId := 2 }
    ∧ get_message_by_id 1
        (wsStep "alice" "work" 7 (fun _ => true) 100
          (.frame { action := "delete", room := none, message := none
                  , id := some 1, index := none, name := none })
          { db := { messages := [{ id := 1, room := "school", name := "alice"
                                 , text := some "hi", img := none, ts := 50 }]
                  , nextId := 2 }
          , clients := { work := [7], school := [9] } }).state.db
      = none
    ∧ (wsStep "alice" "work" 7 (fun _ => true) 100
        (.frame { action := "delete", room := none, message := none
                , id := some 1, index := none, name := none })
        { db := { messages := [{ id := 1, room := "school", name := "alice"
                               , text := some "hi", img := none, ts := 50 }]
                , nextId := 2 }
        , clients := { work := [7], school := [9] } }).state.clients.get "school"
      = ({ work := [7], school := [9] } : Clients).get "school" := by
  have hE := cross_room_mutation "alice" "work" 7 (fun _ => true) 100
      { action := "edit", room := none
      , message := some { name := "alice", text := some "bye", img := none }
      , id := some 1, index := none, name := none }
      { db := { messages := [{ id := 1, room := "school", name := "alice"
                             , text := some "hi", img := none, ts := 50 }]
              , nextId := 2 }
      , clients := { work := [7], school := [9] } }
      1
      { id := 1, room := "school", name := "alice"
      , text := some "hi", img := none, ts := 50 }
      (Or.inl rfl) rfl (by decide) rfl (by decide)
  have hD := cross_room_mutation "alice" "work" 7 (fun _ => true) 100
      { action := "delete", room := none, message := none
      , id := some 1, index := none, name := none }
      { db := { messages := [{ id := 1, room := "school", name := "alice"
                             , text := some "hi", img := none, ts := 50 }]
              , nextId := 2 }
      , clients := { work := [7], school := [9] } }
      1
      { id := 1, room := "school", name := "alice"
      , text := some "hi", img := none, ts := 50 }
      (Or.inr rfl) rfl (by decide) rfl (by decide)
  exact ⟨(hE.1 rfl).1, (hE.1 rfl).2, (hD.2.1 rfl).1, (hD.2.1 rfl).2, hD.2.2.2.2⟩
